import Mathlib

/-!
# Verification of the arbitrage bot's `main.rs` startup and heartbeat logic

Shallow embedding of `src/main.rs` of the Polymarket/Kalshi arbitrage bot.
Pure fragments of the Rust code (environment-flag parsing, the discovery
dispatch, the threshold computation, the heartbeat scan, the supervisor
loop body, and the sequential startup control flow of `main`) are
translated into executable Lean definitions, and the specification's
claims about them are settled as theorems.

Venue naming: venue A is Kalshi (the authenticated stream), venue B is
Polymarket, matching the specification.
-/

namespace ArbBot

/- ## String utilities (Rust `std` semantics used by `main.rs`) -/

/-- Rust `u8::to_ascii_lowercase` lifted to chars: maps `A..Z` to lowercase,
leaves every other character unchanged.  ASCII uppercase letters are
single-byte in UTF-8, so the byte-wise Rust operation coincides with this
character-wise one. -/
def asciiLowerChar (c : Char) : Char :=
  if 'A' ≤ c ∧ c ≤ 'Z' then Char.ofNat (c.toNat + 32) else c

/-- Rust `str::eq_ignore_ascii_case`: equality after ASCII-lowercasing both
sides (Rust compares lengths and then byte pairs with
`u8::eq_ignore_ascii_case`, which is equivalent). -/
def eqIgnoreAsciiCase (a b : String) : Bool :=
  a.data.map asciiLowerChar == b.data.map asciiLowerChar

/-- `std::env::var(name).map(|v| v == "1" || v.eq_ignore_ascii_case("true")).unwrap_or(dflt)`:
the boolean-environment-flag idiom used for `DRY_RUN` (default `true`),
`KALSHI_ONLY` (default `false`) and `FORCE_DISCOVERY` (default `false`)
in `main.rs`. -/
def envFlag (v : Option String) (dflt : Bool) : Bool :=
  match v with
  | none => dflt
  | some s => s == "1" || eqIgnoreAsciiCase s "true"

/-- Dry-run mode as computed at `main.rs` lines 63-65: `envFlag` of `DRY_RUN`
with default `true`. -/
def dryRunOf (dryRunVar : Option String) : Bool :=
  envFlag dryRunVar true

/- ## Discovery dispatch (`main.rs` lines 108-114) -/

/-- The three discovery operations `main` can invoke. -/
inductive DiscoveryOp
  | kalshiOnlyOp
  | forceOp
  | allOp
deriving DecidableEq, Repr

/-- `main.rs` lines 108-114: `if kalshi_only { discover_kalshi_only } else if
force_discovery { discover_all_force } else { discover_all }`. -/
def discoveryDispatch (kalshiOnly forceDiscovery : Bool) : DiscoveryOp :=
  if kalshiOnly then .kalshiOnlyOp
  else if forceDiscovery then .forceOp
  else .allOp

/- ## Fee model -/

/-- Modelled from the spec: `kalshi_fee_cents` lives in `types.rs`, which is
not under `src/`; the spec gives the venue-A (Kalshi) fee per leg at price
`p` cents as `ceil(0.07 × p × (100 − p) / 100)` cents, clamped to ≥ 0.
`0.07 × p × (100 − p) / 100 = 7·p·(100−p) / 10000`, so the ceiling is
`(7·p·(100−p) + 9999) / 10000` in natural-number division. -/
def kalshi_fee_cents (p : Nat) : Nat :=
  (7 * p * (100 - p) + 9999) / 10000

/-- Modelled from the spec: the Polymarket per-contract fee when `neg_risk`
is true.  The formula is not in `src/`; the spec says "a small per-contract
fee applies" and "the source treats it as a small constant".  Modelled as
the smallest positive integer-cent fee; the verification verdicts below
depend only on it being positive. -/
def poly_neg_risk_fee_cents : Nat := 1

/-- The venue-B (Polymarket) fee as the spec describes it: 0 unless
`neg_risk` is true. -/
def poly_fee_cents (p : Nat) (negRisk : Bool) : Nat :=
  if negRisk then poly_neg_risk_fee_cents else 0

/- ## Heartbeat scan (`main.rs` lines 352-427, full mode) -/

/-- Snapshot of one market as the heartbeat loop reads it: the first two
components of each venue's price-cell `load()` (`k_yes, k_no` and
`p_yes, p_no`), the market id, and the pair's `neg_risk` flag (carried for
comparison with the spec's fee formula; the heartbeat code never reads it). -/
structure MarketSnap where
  marketId : Nat
  kYes : Nat
  kNo : Nat
  pYes : Nat
  pNo : Nat
  negRisk : Bool
deriving Repr, DecidableEq

/-- `has_k` at `main.rs` line 366: both Kalshi sides quoted. -/
def HasK (m : MarketSnap) : Prop := 0 < m.kYes ∧ 0 < m.kNo

/-- `has_p` at `main.rs` line 367: both Polymarket sides quoted. -/
def HasP (m : MarketSnap) : Prop := 0 < m.pYes ∧ 0 < m.pNo

instance (m : MarketSnap) : Decidable (HasK m) := by unfold HasK; infer_instance
instance (m : MarketSnap) : Decidable (HasP m) := by unfold HasP; infer_instance

/-- `fee1 = kalshi_fee_cents(k_no)` (`main.rs` line 377). -/
def fee1 (m : MarketSnap) : Nat := kalshi_fee_cents m.kNo

/-- `cost1 = p_yes + k_no + fee1` (`main.rs` line 378): buy Polymarket-YES
and Kalshi-NO, i.e. direction B_yes + A_no. -/
def cost1 (m : MarketSnap) : Nat := m.pYes + m.kNo + fee1 m

/-- `fee2 = kalshi_fee_cents(k_yes)` (`main.rs` line 380). -/
def fee2 (m : MarketSnap) : Nat := kalshi_fee_cents m.kYes

/-- `cost2 = k_yes + fee2 + p_no` (`main.rs` line 381): buy Kalshi-YES and
Polymarket-NO, i.e. direction A_yes + B_no. -/
def cost2 (m : MarketSnap) : Nat := m.kYes + fee2 m + m.pNo

/-- `main.rs` lines 383-387: `(best_cost, best_fee, is_poly_yes) =
if cost1 <= cost2 { (cost1, fee1, true) } else { (cost2, fee2, false) }`.
`is_poly_yes = true` is the Polymarket-YES + Kalshi-NO (B_yes + A_no)
direction. -/
def bestDirection (m : MarketSnap) : Nat × Nat × Bool :=
  if cost1 m ≤ cost2 m then (cost1 m, fee1 m, true) else (cost2 m, fee2 m, false)

/-- The `best_arb` tuple `(cost, market_id, p_yes, k_no, k_yes, p_no, fee,
is_poly_yes)` built at `main.rs` line 390. -/
structure BestArb where
  cost : Nat
  marketId : Nat
  pYes : Nat
  kNo : Nat
  kYes : Nat
  pNo : Nat
  fee : Nat
  isPolyYes : Bool
deriving Repr, DecidableEq

/-- The `best_arb` entry the loop would store for market `m`. -/
def mkBest (m : MarketSnap) : BestArb :=
  { cost := (bestDirection m).1
    marketId := m.marketId
    pYes := m.pYes
    kNo := m.kNo
    kYes := m.kYes
    pNo := m.pNo
    fee := (bestDirection m).2.1
    isPolyYes := (bestDirection m).2.2 }

/-- `best_arb.is_none() || best_cost < best_arb.as_ref().unwrap().0`
(`main.rs` line 389). -/
def betterThan (cur : Option BestArb) (c : Nat) : Bool :=
  match cur with
  | none => true
  | some b => c < b.cost

/-- Accumulator of the heartbeat loop: the four counters and `best_arb`. -/
structure HeartbeatReport where
  marketCount : Nat
  withKalshi : Nat
  withPoly : Nat
  withBoth : Nat
  bestArb : Option BestArb
deriving Repr, DecidableEq

/-- One iteration of the heartbeat loop body (`main.rs` lines 363-393). -/
def heartbeatStep (acc : HeartbeatReport) (m : MarketSnap) : HeartbeatReport :=
  let acc1 := if 0 < m.kYes ∨ 0 < m.kNo then
    { acc with withKalshi := acc.withKalshi + 1 } else acc
  let acc2 := if 0 < m.pYes ∨ 0 < m.pNo then
    { acc1 with withPoly := acc1.withPoly + 1 } else acc1
  if HasK m ∧ HasP m then
    let acc3 := { acc2 with withBoth := acc2.withBoth + 1 }
    if betterThan acc3.bestArb (bestDirection m).1 then
      { acc3 with bestArb := some (mkBest m) }
    else acc3
  else acc2

/-- The whole heartbeat scan over the markets vector (`main.rs` lines
357-393): counters start at zero, `best_arb` at `None`, `market_count` is
the vector length (the loop's `take(market_count)` is the identity). -/
def heartbeatScan (ms : List MarketSnap) : HeartbeatReport :=
  ms.foldl heartbeatStep
    { marketCount := ms.length, withKalshi := 0, withPoly := 0
      withBoth := 0, bestArb := none }

/-- The heartbeat interval in seconds (`main.rs` line 354:
`tokio::time::interval(Duration::from_secs(60))`). -/
def heartbeat_period_secs : Nat := 60

/-- ASCII-lowercase an entire string (Rust `str::to_ascii_lowercase`). -/
def asciiLowerStr (s : String) : String := String.mk (s.data.map asciiLowerChar)

/-- The directional cost `cost_buy_A_yes_B_no` exactly as the specification
states it: `A.yes_ask + B.no_ask + fee_A(A.yes_ask) + fee_B(B.no_ask,
neg_risk)`, with A = Kalshi and B = Polymarket. -/
def claimed_cost_A_yes_B_no (m : MarketSnap) : Nat :=
  m.kYes + m.pNo + kalshi_fee_cents m.kYes + poly_fee_cents m.pNo m.negRisk

/-- The directional cost `cost_buy_B_yes_A_no` exactly as the specification
states it: `B.yes_ask + A.no_ask + fee_A(A.no_ask) + fee_B(B.yes_ask,
neg_risk)`. -/
def claimed_cost_B_yes_A_no (m : MarketSnap) : Nat :=
  m.pYes + m.kNo + kalshi_fee_cents m.kNo + poly_fee_cents m.pYes m.negRisk

/- ### Helper lemmas about the heartbeat fold -/

/-- The `best_arb` update of one loop iteration, in isolation. -/
def bestStep (cur : Option BestArb) (m : MarketSnap) : Option BestArb :=
  if (HasK m ∧ HasP m) ∧ betterThan cur (bestDirection m).1 then
    some (mkBest m)
  else cur

lemma heartbeatStep_marketCount (acc : HeartbeatReport) (m : MarketSnap) :
    (heartbeatStep acc m).marketCount = acc.marketCount := by
  unfold heartbeatStep
  dsimp only
  repeat' split
  all_goals rfl

lemma heartbeatStep_withKalshi (acc : HeartbeatReport) (m : MarketSnap) :
    (heartbeatStep acc m).withKalshi =
      acc.withKalshi + (if 0 < m.kYes ∨ 0 < m.kNo then 1 else 0) := by
  unfold heartbeatStep
  dsimp only
  repeat' split
  all_goals simp_all [HasK, HasP]

lemma heartbeatStep_withPoly (acc : HeartbeatReport) (m : MarketSnap) :
    (heartbeatStep acc m).withPoly =
      acc.withPoly + (if 0 < m.pYes ∨ 0 < m.pNo then 1 else 0) := by
  unfold heartbeatStep
  dsimp only
  repeat' split
  all_goals simp_all [HasK, HasP]

lemma heartbeatStep_withBoth (acc : HeartbeatReport) (m : MarketSnap) :
    (heartbeatStep acc m).withBoth =
      acc.withBoth + (if HasK m ∧ HasP m then 1 else 0) := by
  unfold heartbeatStep
  dsimp only
  repeat' split
  all_goals simp_all [HasK, HasP]

lemma heartbeatStep_bestArb (acc : HeartbeatReport) (m : MarketSnap) :
    (heartbeatStep acc m).bestArb = bestStep acc.bestArb m := by
  unfold heartbeatStep bestStep
  dsimp only
  repeat' split
  all_goals simp_all [HasK, HasP]

lemma foldl_marketCount (ms : List MarketSnap) (acc : HeartbeatReport) :
    (ms.foldl heartbeatStep acc).marketCount = acc.marketCount := by
  induction ms generalizing acc with
  | nil => rfl
  | cons m ms ih =>
      simp only [List.foldl_cons, ih, heartbeatStep_marketCount]

lemma foldl_withKalshi (ms : List MarketSnap) (acc : HeartbeatReport) :
    (ms.foldl heartbeatStep acc).withKalshi =
      acc.withKalshi + (ms.countP fun m => decide (0 < m.kYes ∨ 0 < m.kNo)) := by
  induction ms generalizing acc with
  | nil => simp
  | cons m ms ih =>
      simp only [List.foldl_cons, ih, heartbeatStep_withKalshi,
        List.countP_cons]
      split
      · simp_all [Nat.add_comm, Nat.add_assoc]
      · simp_all

lemma foldl_withPoly (ms : List MarketSnap) (acc : HeartbeatReport) :
    (ms.foldl heartbeatStep acc).withPoly =
      acc.withPoly + (ms.countP fun m => decide (0 < m.pYes ∨ 0 < m.pNo)) := by
  induction ms generalizing acc with
  | nil => simp
  | cons m ms ih =>
      simp only [List.foldl_cons, ih, heartbeatStep_withPoly,
        List.countP_cons]
      split
      · simp_all [Nat.add_comm, Nat.add_assoc]
      · simp_all

lemma foldl_withBoth (ms : List MarketSnap) (acc : HeartbeatReport) :
    (ms.foldl heartbeatStep acc).withBoth =
      acc.withBoth + (ms.countP fun m => decide (HasK m ∧ HasP m)) := by
  induction ms generalizing acc with
  | nil => simp
  | cons m ms ih =>
      simp only [List.foldl_cons, ih, heartbeatStep_withBoth,
        List.countP_cons]
      split
      · simp_all [Nat.add_comm, Nat.add_assoc]
      · simp_all

lemma foldl_bestArb (ms : List MarketSnap) (acc : HeartbeatReport) :
    (ms.foldl heartbeatStep acc).bestArb = ms.foldl bestStep acc.bestArb := by
  induction ms generalizing acc with
  | nil => rfl
  | cons m ms ih =>
      simp only [List.foldl_cons, ih, heartbeatStep_bestArb]

lemma heartbeatScan_bestArb (ms : List MarketSnap) :
    (heartbeatScan ms).bestArb = ms.foldl bestStep none := by
  unfold heartbeatScan
  rw [foldl_bestArb]

lemma bestDirection_fst_eq_min (m : MarketSnap) :
    (bestDirection m).1 = min (cost1 m) (cost2 m) := by
  unfold bestDirection
  rw [Nat.min_def]
  split <;> simp

lemma mkBest_cost (m : MarketSnap) : (mkBest m).cost = (bestDirection m).1 := rfl

lemma bestStep_foldl_mono (ms : List MarketSnap) (b0 : BestArb) :
    ∃ b, ms.foldl bestStep (some b0) = some b ∧ b.cost ≤ b0.cost := by
  induction ms generalizing b0 with
  | nil => exact ⟨b0, rfl, le_refl _⟩
  | cons m ms ih =>
      simp only [List.foldl_cons]
      unfold bestStep
      split
      · rename_i h
        obtain ⟨b, hb, hle⟩ := ih (mkBest m)
        refine ⟨b, hb, le_trans hle (le_of_lt ?_)⟩
        have := h.2
        simpa [betterThan, mkBest_cost] using this
      · exact ih b0

lemma bestStep_foldl_le (ms : List MarketSnap) (cur : Option BestArb)
    (b : BestArb) (hfold : ms.foldl bestStep cur = some b) :
    ∀ m ∈ ms, HasK m ∧ HasP m → b.cost ≤ (bestDirection m).1 := by
  induction ms generalizing cur with
  | nil => intro m hm; exact absurd hm (List.not_mem_nil m)
  | cons m0 ms ih =>
      simp only [List.foldl_cons] at hfold
      intro m hm hq
      rcases List.mem_cons.mp hm with hm0 | hmem
      · subst hm0
        by_cases hcond : (HasK m ∧ HasP m) ∧ betterThan cur (bestDirection m).1 = true
        · have hstep : bestStep cur m = some (mkBest m) := by
            unfold bestStep
            rw [if_pos hcond]
          rw [hstep] at hfold
          obtain ⟨b', hb', hle⟩ := bestStep_foldl_mono ms (mkBest m)
          rw [hfold] at hb'
          cases hb'
          exact le_trans hle (le_of_eq (mkBest_cost m))
        · have hbt : betterThan cur (bestDirection m).1 = false := by
            rcases Bool.eq_false_or_eq_true (betterThan cur (bestDirection m).1)
              with ht | hf
            · exact absurd ⟨hq, ht⟩ hcond
            · exact hf
          have hstep : bestStep cur m = cur := by
            unfold bestStep
            rw [if_neg]
            intro hc
            rw [hc.2] at hbt
            simp at hbt
          rw [hstep] at hfold
          cases cur with
          | none => simp [betterThan] at hbt
          | some b0 =>
              have hb0 : b0.cost ≤ (bestDirection m).1 := by
                have : ¬ ((bestDirection m).1 < b0.cost) := by
                  simpa [betterThan] using hbt
                omega
              obtain ⟨b', hb', hle⟩ := bestStep_foldl_mono ms b0
              rw [hfold] at hb'
              cases hb'
              exact le_trans hle hb0
      · exact ih (bestStep cur m0) hfold m hmem hq

lemma bestStep_foldl_origin (ms : List MarketSnap) (cur : Option BestArb)
    (b : BestArb) (hfold : ms.foldl bestStep cur = some b) :
    cur = some b ∨ ∃ m ∈ ms, (HasK m ∧ HasP m) ∧ b = mkBest m := by
  induction ms generalizing cur with
  | nil => exact Or.inl hfold
  | cons m0 ms ih =>
      simp only [List.foldl_cons] at hfold
      rcases ih (bestStep cur m0) hfold with hcur | ⟨m, hm, hq, hb⟩
      · unfold bestStep at hcur
        by_cases hcond :
            (HasK m0 ∧ HasP m0) ∧ betterThan cur (bestDirection m0).1 = true
        · rw [if_pos hcond] at hcur
          exact Or.inr ⟨m0, List.mem_cons_self m0 ms, hcond.1,
            (Option.some_injective _ hcur).symm⟩
        · rw [if_neg hcond] at hcur
          exact Or.inl hcur
      · exact Or.inr ⟨m, List.mem_cons_of_mem m0 hm, hq, hb⟩

lemma bestStep_eq_none (cur : Option BestArb) (m : MarketSnap) :
    bestStep cur m = none ↔ cur = none ∧ ¬(HasK m ∧ HasP m) := by
  unfold bestStep
  cases cur <;> split <;> simp_all [betterThan]

lemma bestStep_foldl_none (ms : List MarketSnap) (cur : Option BestArb) :
    ms.foldl bestStep cur = none ↔
      cur = none ∧ ∀ m ∈ ms, ¬(HasK m ∧ HasP m) := by
  induction ms generalizing cur with
  | nil => simp
  | cons m0 ms ih =>
      simp only [List.foldl_cons]
      rw [ih (bestStep cur m0), bestStep_eq_none]
      constructor
      · rintro ⟨⟨hc, hq0⟩, hrest⟩
        refine ⟨hc, ?_⟩
        intro m hm
        rcases List.mem_cons.mp hm with rfl | hmem
        · exact hq0
        · exact hrest m hmem
      · rintro ⟨hc, hall⟩
        exact ⟨⟨hc, hall m0 (List.mem_cons_self m0 ms)⟩,
          fun m hm => hall m (List.mem_cons_of_mem m0 hm)⟩

end ArbBot

open ArbBot

/-- **C10.** When KALSHI_ONLY is set, discovery always calls
`discover_kalshi_only` (FORCE_DISCOVERY has no effect); `discover_all_force`
runs exactly when KALSHI_ONLY is off and FORCE_DISCOVERY is on; and
`discover_all` exactly when both are off. -/
theorem c10_discovery_dispatch (k f : Bool) :
    (discoveryDispatch true f = .kalshiOnlyOp) ∧
    (discoveryDispatch k f = .forceOp ↔ k = false ∧ f = true) ∧
    (discoveryDispatch k f = .allOp ↔ k = false ∧ f = false) := by
  cases k <;> cases f <;> simp [discoveryDispatch]

/-- **C2 (counterexample).** At a market where the two directional costs tie
(`cost1 = cost2`), the heartbeat's best-opportunity selection reports
`is_poly_yes = true`, i.e. the Polymarket-YES + Kalshi-NO (B_yes + A_no)
direction — not the Kalshi-YES + Polymarket-NO (A_yes + B_no) direction the
claim says is preferred on a tie. -/
theorem c2_tie_counterexample :
    cost1 ⟨7, 48, 48, 50, 50, false⟩ = cost2 ⟨7, 48, 48, 50, 50, false⟩ ∧
    (heartbeatScan [⟨7, 48, 48, 50, 50, false⟩]).bestArb.map BestArb.isPolyYes
      = some true := by decide

/-- **C2 (amended).** Whenever the two directional costs are equal, the
`cost1 <= cost2` branch is taken, so the direction B_yes + A_no
(Polymarket-YES + Kalshi-NO, `is_poly_yes = true`) is chosen, with the tied
cost and the Kalshi fee on the NO leg. -/
theorem c2_tie_prefers_poly_yes (m : MarketSnap) (h : cost1 m = cost2 m) :
    bestDirection m = (cost1 m, fee1 m, true) := by
  unfold bestDirection
  rw [if_pos (le_of_eq h)]

/-- Witness for `c2_tie_prefers_poly_yes` at a concrete tied market. -/
theorem c2_tie_prefers_poly_yes_witness :
    bestDirection ⟨9, 30, 30, 65, 65, false⟩ =
      (cost1 ⟨9, 30, 30, 65, 65, false⟩, fee1 ⟨9, 30, 30, 65, 65, false⟩,
        true) :=
  c2_tie_prefers_poly_yes ⟨9, 30, 30, 65, 65, false⟩ (by decide)

/-- **C3 (counterexample).** At a market with `neg_risk = true` and both
venues quoting both sides, the claimed directional-cost formulas (which add
a positive Polymarket fee when `neg_risk` holds) disagree with the costs the
heartbeat actually computes: the heartbeat's best cost is 87¢ while the
claimed formulas' cheaper direction is 88¢. -/
theorem c3_cost_formula_counterexample :
    (⟨1, 40, 40, 45, 45, true⟩ : MarketSnap).negRisk = true ∧
    HasK ⟨1, 40, 40, 45, 45, true⟩ ∧ HasP ⟨1, 40, 40, 45, 45, true⟩ ∧
    claimed_cost_A_yes_B_no ⟨1, 40, 40, 45, 45, true⟩ ≠
      cost2 ⟨1, 40, 40, 45, 45, true⟩ ∧
    claimed_cost_B_yes_A_no ⟨1, 40, 40, 45, 45, true⟩ ≠
      cost1 ⟨1, 40, 40, 45, 45, true⟩ ∧
    (heartbeatScan [⟨1, 40, 40, 45, 45, true⟩]).bestArb.map BestArb.cost
      = some 87 ∧
    min (claimed_cost_A_yes_B_no ⟨1, 40, 40, 45, 45, true⟩)
      (claimed_cost_B_yes_A_no ⟨1, 40, 40, 45, 45, true⟩) = 88 := by
  decide

/-- **C3 (amended).** The heartbeat computes the two directional costs with
the Kalshi fee on the Kalshi leg and no Polymarket fee at all (the
`neg_risk` flag is ignored, i.e. the Polymarket fee term is the
`neg_risk = false` one for every market): `cost_buy_A_yes_B_no = K.yes_ask +
P.no_ask + fee_A(K.yes_ask)` and `cost_buy_B_yes_A_no = P.yes_ask + K.no_ask
+ fee_A(K.no_ask)`; and the heartbeat's best opportunity is a market (with
both sides quoted on both venues) minimizing the cheaper of the two
directional costs. -/
theorem c3_heartbeat_costs (ms : List MarketSnap) :
    (∀ m : MarketSnap,
      cost2 m =
        m.kYes + m.pNo + kalshi_fee_cents m.kYes + poly_fee_cents m.pNo false ∧
      cost1 m =
        m.pYes + m.kNo + kalshi_fee_cents m.kNo + poly_fee_cents m.pYes false) ∧
    (∀ b, (heartbeatScan ms).bestArb = some b →
      (∃ m ∈ ms, (HasK m ∧ HasP m) ∧ b.cost = min (cost1 m) (cost2 m)) ∧
      ∀ m ∈ ms, HasK m ∧ HasP m → b.cost ≤ min (cost1 m) (cost2 m)) := by
  constructor
  · intro m
    constructor
    · unfold cost2 fee2 poly_fee_cents
      simp
      try ring
    · unfold cost1 fee1 poly_fee_cents
      simp
      try ring
  · intro b hb
    rw [heartbeatScan_bestArb] at hb
    constructor
    · rcases bestStep_foldl_origin ms none b hb with hnone | ⟨m, hm, hq, hmk⟩
      · exact absurd hnone (by simp)
      · refine ⟨m, hm, hq, ?_⟩
        rw [hmk, mkBest_cost, bestDirection_fst_eq_min]
    · intro m hm hq
      rw [← bestDirection_fst_eq_min]
      exact bestStep_foldl_le ms none b hb m hm hq

/-- Witness for `c3_heartbeat_costs` at a concrete one-market scan. -/
theorem c3_heartbeat_costs_witness :
    ∃ m ∈ [(⟨1, 45, 60, 52, 50, false⟩ : MarketSnap)],
      (HasK m ∧ HasP m) ∧
      (97 : Nat) = min (cost1 m) (cost2 m) := by
  have h := (c3_heartbeat_costs [⟨1, 45, 60, 52, 50, false⟩]).2
    { cost := 97, marketId := 1, pYes := 52, kNo := 60, kYes := 45, pNo := 50
      fee := 2, isPolyYes := false } (by decide)
  exact h.1

/-- **C8.** The heartbeat runs on a 60-second interval, and each scan
reports: the total market count, the count of markets with any Kalshi
price, the count with any Polymarket price, the count with both sides
quoted on both venues, and (when one exists) a best opportunity that comes
from a both-quoted market, carries that market's per-leg breakdown
(`p_yes, k_no, k_yes, p_no`, the chosen direction's fee and direction flag),
and has minimal cost among all both-quoted markets. -/
theorem c8_heartbeat_report (ms : List MarketSnap) :
    heartbeat_period_secs = 60 ∧
    (heartbeatScan ms).marketCount = ms.length ∧
    (heartbeatScan ms).withKalshi =
      (ms.filter fun m => decide (0 < m.kYes ∨ 0 < m.kNo)).length ∧
    (heartbeatScan ms).withPoly =
      (ms.filter fun m => decide (0 < m.pYes ∨ 0 < m.pNo)).length ∧
    (heartbeatScan ms).withBoth =
      (ms.filter fun m => decide (HasK m ∧ HasP m)).length ∧
    ((heartbeatScan ms).bestArb = none ↔ ∀ m ∈ ms, ¬(HasK m ∧ HasP m)) ∧
    (∀ b, (heartbeatScan ms).bestArb = some b →
      (∃ m ∈ ms, (HasK m ∧ HasP m) ∧ b = mkBest m) ∧
      ∀ m ∈ ms, HasK m ∧ HasP m → b.cost ≤ (bestDirection m).1) := by
  refine ⟨rfl, ?_, ?_, ?_, ?_, ?_, ?_⟩
  · exact foldl_marketCount ms _
  · rw [heartbeatScan, foldl_withKalshi]
    simp [List.countP_eq_length_filter]
  · rw [heartbeatScan, foldl_withPoly]
    simp [List.countP_eq_length_filter]
  · rw [heartbeatScan, foldl_withBoth]
    simp [List.countP_eq_length_filter]
  · rw [heartbeatScan_bestArb, bestStep_foldl_none]
    simp
  · intro b hb
    rw [heartbeatScan_bestArb] at hb
    constructor
    · rcases bestStep_foldl_origin ms none b hb with hnone | hmem
      · exact absurd hnone (by simp)
      · exact hmem
    · exact bestStep_foldl_le ms none b hb

/-- Witness for `c8_heartbeat_report` at a concrete one-market scan. -/
theorem c8_heartbeat_report_witness :
    ∃ m ∈ [(⟨3, 45, 60, 52, 50, false⟩ : MarketSnap)],
      (HasK m ∧ HasP m) ∧
      ({ cost := 97, marketId := 3, pYes := 52, kNo := 60, kYes := 45
         pNo := 50, fee := 2, isPolyYes := false } : BestArb) = mkBest m := by
  have h := (c8_heartbeat_report [⟨3, 45, 60, 52, 50, false⟩]).2.2.2.2.2.2
    { cost := 97, marketId := 3, pYes := 52, kNo := 60, kYes := 45, pNo := 50
      fee := 2, isPolyYes := false } (by decide)
  exact h.1

/-- **C5.** Dry-run mode defaults to on: with `DRY_RUN` unset the mode is
dry-run, and with `DRY_RUN` set to `v` the mode is dry-run exactly when
`v = "1"` or `v` ASCII-lowercases to `"true"`; every other value turns
real order placement on. -/
theorem c5_dry_run_default (v : String) :
    dryRunOf none = true ∧
    (dryRunOf (some v) = true ↔ v = "1" ∨ asciiLowerStr v = "true") := by
  refine ⟨rfl, ?_⟩
  have htrue : (("true" : String).data.map asciiLowerChar)
      = ("true" : String).data := by decide
  unfold dryRunOf envFlag eqIgnoreAsciiCase asciiLowerStr
  rw [Bool.or_eq_true, beq_iff_eq, beq_iff_eq, htrue]
  simp [String.ext_iff]

namespace ArbBot

/- ## Execution threshold (`main.rs` line 153) -/

/-- Rust `f64::round` (round half away from zero), with the float value
idealized as an exact rational. -/
def rustRound (q : ℚ) : ℤ := if 0 ≤ q then ⌊q + 1/2⌋ else ⌈q - 1/2⌉

/-- Rust's saturating float-to-integer cast `as u16`: clamps to
`[0, 65535]` (and maps NaN to 0, which has no rational counterpart). -/
def satCastU16 (n : ℤ) : ℕ := (min (max n 0) 65535).toNat

/-- `main.rs` line 153: `((ARB_THRESHOLD * 100.0).round() as u16).max(1)`,
with the `f64` arithmetic idealized as exact rational arithmetic. -/
def threshold_cents (arbThreshold : ℚ) : ℕ :=
  max (satCastU16 (rustRound (arbThreshold * 100))) 1

lemma rustRound_intCast (n : ℤ) : rustRound (n : ℚ) = n := by
  unfold rustRound
  split
  · rw [Int.floor_int_add]
    norm_num
  · rw [show ((n : ℚ) - 1/2) = (-(1/2)) + (n : ℚ) by ring, Int.ceil_add_int]
    norm_num

lemma rustRound_hundredThousand : rustRound ((1000 : ℚ) * 100) = 100000 := by
  have h := rustRound_intCast 100000
  have hc : ((100000 : ℤ) : ℚ) = (1000 : ℚ) * 100 := by norm_num
  rw [hc] at h
  exact h

lemma rustRound_ninetyNine : rustRound ((99 / 100 : ℚ) * 100) = 99 := by
  have h := rustRound_intCast 99
  have hc : ((99 : ℤ) : ℚ) = (99 / 100 : ℚ) * 100 := by norm_num
  rw [hc] at h
  exact h

end ArbBot

/-- **C4 (counterexample).** At `ARB_THRESHOLD = 1000` the rounded value
`round(1000 × 100) = 100000` does not survive the `as u16` cast: the cast
saturates at 65535, so the computed threshold (65535) differs from
`max(1, round(ARB_THRESHOLD × 100)) = 100000`, refuting the claim that the
equation holds for every value of `ARB_THRESHOLD`. -/
theorem c4_threshold_counterexample :
    (threshold_cents 1000 : ℤ) ≠ max 1 (rustRound (1000 * 100)) := by
  unfold threshold_cents satCastU16
  rw [rustRound_hundredThousand]
  norm_num

/-- **C4 (amended).** Whenever `round(ARB_THRESHOLD × 100) ≤ 65535` (so the
`as u16` cast does not saturate above; downward saturation at 0 is absorbed
by the final `max 1`), the execution threshold equals
`max(1, round(ARB_THRESHOLD × 100))`. -/
theorem c4_threshold_formula (x : ℚ) (h : rustRound (x * 100) ≤ 65535) :
    (threshold_cents x : ℤ) = max 1 (rustRound (x * 100)) := by
  unfold threshold_cents satCastU16
  push_cast [Int.toNat_eq_max]
  omega

/-- Witness for `c4_threshold_formula` at the default threshold 0.99:
the computed threshold is `max 1 99 = 99` cents. -/
theorem c4_threshold_formula_witness :
    (threshold_cents (99 / 100) : ℤ) = max 1 (rustRound ((99 / 100) * 100)) :=
  c4_threshold_formula (99 / 100) (by rw [rustRound_ninetyNine]; norm_num)

namespace ArbBot

/- ## Stream supervisor loops (`main.rs` lines 302-316 and 340-347) -/

/-- Modelled from the spec: `WS_RECONNECT_DELAY_SECS` is defined in
`config.rs`, which is not under `src/`; the spec gives its default, 5
seconds. -/
def WS_RECONNECT_DELAY_SECS : Nat := 5

/-- The two streaming venues whose supervisors share the same loop shape. -/
inductive Venue
  | kalshi
  | polymarket
deriving DecidableEq, Repr

/-- Observable actions of one supervisor loop iteration. -/
inductive SupAction
  | runWs (v : Venue)
  | logDisconnect (v : Venue) (msg : String)
  | sleepSecs (n : Nat)
deriving DecidableEq, Repr

/-- One iteration of a stream-supervisor `loop` body (`main.rs` lines
303-315 for Kalshi, 341-346 for Polymarket): run the websocket client, log
if it returned an error, then sleep the fixed reconnect delay.  The loop
has no break, no condition and no attempt counter. -/
def supervisorIteration (v : Venue) (outcome : Except String Unit) :
    List SupAction :=
  [.runWs v] ++
    (match outcome with
     | .error e => [.logDisconnect v e]
     | .ok _ => []) ++
  [.sleepSecs WS_RECONNECT_DELAY_SECS]

/-- The supervisor's schedule: the actions of the `n`-th loop iteration,
given the connection outcome of every attempt.  Total in `n`: a next
attempt exists after every outcome. -/
def supervisorTrace (v : Venue) (outcomes : Nat → Except String Unit)
    (n : Nat) : List SupAction :=
  supervisorIteration v (outcomes n)

/-- The sleep durations occurring in a list of supervisor actions. -/
def sleepsOf (as : List SupAction) : List Nat :=
  as.foldr (fun a acc => match a with | .sleepSecs n => n :: acc | _ => acc) []

/- ## Sequential startup control flow of `main` (`main.rs` lines 42-434) -/

/-- A discovered market pair, as far as `main` itself inspects it. -/
structure MarketPair where
  description : String
  marketType : String
  kalshiTicker : String
deriving Repr, DecidableEq

/-- Result of a discovery call: matched pairs plus accumulated per-pair
errors (which `main` only logs). -/
structure DiscoveryResult where
  pairs : List MarketPair
  errors : List String
deriving Repr, DecidableEq

/-- The environment variables `main` reads directly. -/
structure Env where
  dryRun : Option String
  kalshiOnly : Option String
  forceDiscovery : Option String
  polyPrivateKey : Option String
  polyFunder : Option String
deriving Repr, DecidableEq

/-- Outcomes of the effectful calls `main` makes (filesystem and network),
treated as oracle inputs to the sequential control flow. -/
structure Effects where
  kalshiConfig : Except String Unit
  discoverKalshiOnly : DiscoveryResult
  discoverAllForce : DiscoveryResult
  discoverAll : DiscoveryResult
  polyClientNew : Except String Unit
  deriveApiKey : Except String Unit
  preparedCreds : Except String Unit
  loadCacheOk : Bool
deriving Repr

/-- How a run of `main` leaves the sequential startup phase. -/
inductive RunOutcome
  | exitOk
  | exitErr (msg : String)
  | panicked (msg : String)
  | runningKalshiOnly
  | runningFull
deriving DecidableEq, Repr

/-- UTF-8 encoding of one Unicode scalar value, as Rust strings store it. -/
def utf8Bytes (c : Char) : List Nat :=
  let n := c.toNat
  if n < 0x80 then [n]
  else if n < 0x800 then
    [0xC0 + n / 64, 0x80 + n % 64]
  else if n < 0x10000 then
    [0xE0 + n / 4096, 0x80 + (n / 64) % 64, 0x80 + n % 64]
  else
    [0xF0 + n / 262144, 0x80 + (n / 4096) % 64, 0x80 + (n / 64) % 64,
      0x80 + n % 64]

/-- The UTF-8 byte string backing a Rust `String`. -/
def strBytes (s : String) : List Nat := (s.data.map utf8Bytes).flatten

/-- Rust `str::is_char_boundary(i)` on the byte string: true at 0, at the
total length, and at any byte that is not a UTF-8 continuation byte. -/
def isCharBoundary (bs : List Nat) (i : Nat) : Bool :=
  if i = 0 then true
  else match bs[i]? with
    | none => i == bs.length
    | some b => decide (b < 0x80) || decide (0xC0 ≤ b)

/-- Whether `&poly_funder[..10]` (`main.rs` line 296) succeeds: Rust string
slicing panics unless byte index 10 is a char boundary. -/
def sliceTo10Ok (funder : String) : Bool :=
  isCharBoundary (strBytes funder) 10

/-- The panic message category for a failed byte-slice of the funder. -/
def slicePanicMsg : String :=
  "byte index 10 is out of bounds of or not a char boundary in poly_funder"

/-- The discovery result `main` uses, per the dispatch at lines 108-114. -/
def discoveryResultOf (env : Env) (fx : Effects) : DiscoveryResult :=
  match discoveryDispatch (envFlag env.kalshiOnly false)
      (envFlag env.forceDiscovery false) with
  | .kalshiOnlyOp => fx.discoverKalshiOnly
  | .forceOp => fx.discoverAllForce
  | .allOp => fx.discoverAll

/-- Sequential control flow of `main` (`main.rs` lines 42-434).  Each `?`
on an effectful call propagates the oracle's error as a non-zero process
exit; `return Ok(())` is exit code 0.  Entering the `tokio::join!` on the
long-running task sets is the `running…` outcome (those joins never
complete on their own). -/
def runMain (env : Env) (fx : Effects) : RunOutcome :=
  match fx.kalshiConfig with
  | .error e => .exitErr e
  | .ok _ =>
    let result := discoveryResultOf env fx
    if result.pairs.isEmpty then .exitOk
    else if envFlag env.kalshiOnly false then .runningKalshiOnly
    else
      match env.polyPrivateKey with
      | none => .exitErr "POLY_PRIVATE_KEY not set"
      | some _ =>
        match env.polyFunder with
        | none => .exitErr "POLY_FUNDER not set (your wallet address)"
        | some funder =>
          match fx.polyClientNew with
          | .error e => .exitErr e
          | .ok _ =>
            match fx.deriveApiKey with
            | .error e => .exitErr e
            | .ok _ =>
              match fx.preparedCreds with
              | .error e => .exitErr e
              | .ok _ =>
                if sliceTo10Ok funder then .runningFull
                else .panicked slicePanicMsg

/-- A fully benign environment/effects pair used as concrete input:
everything succeeds but discovery matches zero pairs. -/
def envEmptyTopo : Env := ⟨none, none, none, some "0xkey", some "0x1234567890"⟩

/-- Effects where every call succeeds and every discovery variant returns
zero pairs. -/
def fxEmptyTopo : Effects :=
  ⟨.ok (), ⟨[], []⟩, ⟨[], []⟩, ⟨[], []⟩, .ok (), .ok (), .ok (), true⟩

/-- One non-empty discovery result shared by the concrete witnesses. -/
def onePair : DiscoveryResult :=
  ⟨[⟨"Team X vs Team Y", "H2H", "KXGAME-XY"⟩], []⟩

/-- Effects where every call succeeds and discovery finds one pair. -/
def fxOnePair : Effects :=
  ⟨.ok (), onePair, onePair, onePair, .ok (), .ok (), .ok (), true⟩

end ArbBot

/-- **C7.** After any streaming-client error or clean disconnect on either
venue, the supervisor retries unconditionally and forever: for every
outcome sequence and every attempt index `n`, iteration `n` exists, starts
by running the websocket client, and contains exactly one sleep, of the
fixed duration `WS_RECONNECT_DELAY_SECS = 5` seconds — independent of the
attempt index and of the outcome, so there is no backoff and no retry
limit. -/
theorem c7_supervisor_fixed_delay (v : Venue)
    (outcomes : Nat → Except String Unit) (n : Nat) :
    (supervisorTrace v outcomes n).head? = some (.runWs v) ∧
    sleepsOf (supervisorTrace v outcomes n) = [WS_RECONNECT_DELAY_SECS] ∧
    WS_RECONNECT_DELAY_SECS = 5 := by
  unfold supervisorTrace supervisorIteration sleepsOf
  cases outcomes n <;> simp [WS_RECONNECT_DELAY_SECS]

/-- **C1 (counterexample).** A run in which every startup call succeeds but
discovery matches zero pairs: `main` logs the condition and returns
`Ok(())`, i.e. the process exits with code 0, not non-zero as the claim
states; and this exit 0 is not a clean shutdown but the empty-topology
startup path. -/
theorem c1_empty_topology_counterexample :
    (discoveryResultOf envEmptyTopo fxEmptyTopo).pairs = [] ∧
    runMain envEmptyTopo fxEmptyTopo = .exitOk := by decide

/-- **C1 (amended).** If the Kalshi credentials load and discovery
completes with zero matched pairs, `main` returns `Ok(())`: the process
exits with code 0 on an empty topology. -/
theorem c1_empty_topology_exits_ok (env : Env) (fx : Effects)
    (hk : fx.kalshiConfig = .ok ())
    (hp : (discoveryResultOf env fx).pairs = []) :
    runMain env fx = .exitOk := by
  unfold runMain
  rw [hk]
  simp [hp]

/-- Witness for `c1_empty_topology_exits_ok` at the concrete empty-topology
input. -/
theorem c1_empty_topology_exits_ok_witness :
    runMain envEmptyTopo fxEmptyTopo = .exitOk :=
  c1_empty_topology_exits_ok envEmptyTopo fxEmptyTopo rfl rfl

namespace ArbBot

lemma sliceTo10Ok_of_short (s : String) (h : (strBytes s).length < 10) :
    sliceTo10Ok s = false := by
  unfold sliceTo10Ok isCharBoundary
  rw [if_neg (by omega)]
  have hnone : (strBytes s)[10]? = none := by
    rw [List.getElem?_eq_none_iff]
    omega
  rw [hnone]
  simp only [beq_eq_false_iff_ne, ne_eq]
  omega

/-- Concrete full-mode environment whose funder address is 5 bytes long. -/
def envShortFunder : Env := ⟨none, none, none, some "0xkey", some "0x123"⟩

/-- Concrete full-mode environment with an unset private key. -/
def envNoPolyKey : Env := ⟨none, none, none, none, some "0x1234567890"⟩

end ArbBot

/-- **C6.** With Kalshi credentials loaded and a non-empty topology: when
single-venue (KALSHI_ONLY) mode is off, `main` returns an error (non-zero
exit) if `POLY_PRIVATE_KEY` or `POLY_FUNDER` is unset; when it is on,
`main`'s outcome is the same whatever those two variables hold, because the
kalshi-only path returns before reading them. -/
theorem c6_poly_credentials_required (env : Env) (fx : Effects)
    (hk : fx.kalshiConfig = .ok ())
    (hp : (discoveryResultOf env fx).pairs ≠ []) :
    (envFlag env.kalshiOnly false = false →
      env.polyPrivateKey = none ∨ env.polyFunder = none →
      ∃ e, runMain env fx = .exitErr e) ∧
    (envFlag env.kalshiOnly false = true →
      ∀ pk pf, runMain env fx =
        runMain { env with polyPrivateKey := pk, polyFunder := pf } fx) := by
  cases hl : (discoveryResultOf env fx).pairs with
  | nil => exact absurd hl hp
  | cons p ps =>
      constructor
      · intro hko hcred
        unfold runMain
        rw [hk]
        dsimp only
        rw [hl]
        simp only [List.isEmpty_cons, Bool.false_eq_true, if_false, hko]
        rcases hcred with h1 | h2
        · rw [h1]
          exact ⟨"POLY_PRIVATE_KEY not set", rfl⟩
        · cases hpk : env.polyPrivateKey with
          | none => exact ⟨"POLY_PRIVATE_KEY not set", rfl⟩
          | some k =>
              rw [h2]
              exact ⟨"POLY_FUNDER not set (your wallet address)", rfl⟩
      · intro hko pk pf
        unfold runMain
        rw [hk]
        dsimp only
        have hl' : (discoveryResultOf
            { env with polyPrivateKey := pk, polyFunder := pf } fx).pairs
            = p :: ps := hl
        rw [hl, hl']
        simp only [List.isEmpty_cons, Bool.false_eq_true, if_false]
        rw [hko]
        rfl

/-- Witness for `c6_poly_credentials_required`: with `POLY_PRIVATE_KEY`
unset in full mode, startup errors out. -/
theorem c6_poly_credentials_required_witness :
    ∃ e, runMain envNoPolyKey fxOnePair = .exitErr e :=
  (c6_poly_credentials_required envNoPolyKey fxOnePair rfl (by decide)).1
    rfl (Or.inl rfl)

/-- **C9.** In full (two-venue) mode with all earlier startup steps
succeeding, if `POLY_FUNDER` is shorter than 10 bytes — or byte 10 falls
off a UTF-8 character boundary, i.e. `is_char_boundary(10)` fails — then
`main` panics at the byte-slice `&poly_funder[..10]` instead of returning
an error result. -/
theorem c9_short_funder_panics (env : Env) (fx : Effects) (funder : String)
    (hk : fx.kalshiConfig = .ok ())
    (hp : (discoveryResultOf env fx).pairs ≠ [])
    (hko : envFlag env.kalshiOnly false = false)
    (hpk : env.polyPrivateKey ≠ none)
    (hf : env.polyFunder = some funder)
    (hc : fx.polyClientNew = .ok ())
    (hd : fx.deriveApiKey = .ok ())
    (hpr : fx.preparedCreds = .ok ())
    (hbad : (strBytes funder).length < 10 ∨ sliceTo10Ok funder = false) :
    runMain env fx = .panicked slicePanicMsg := by
  have hslice : sliceTo10Ok funder = false := by
    rcases hbad with hshort | hfalse
    · exact sliceTo10Ok_of_short funder hshort
    · exact hfalse
  cases hl : (discoveryResultOf env fx).pairs with
  | nil => exact absurd hl hp
  | cons p ps =>
      unfold runMain
      rw [hk]
      dsimp only
      rw [hl]
      simp only [List.isEmpty_cons, Bool.false_eq_true, if_false, hko]
      cases hpkv : env.polyPrivateKey with
      | none => exact absurd hpkv hpk
      | some k =>
          rw [hf, hc]
          dsimp only
          rw [hd]
          dsimp only
          rw [hpr]
          dsimp only
          rw [hslice]
          rfl

/-- Witness for `c9_short_funder_panics` at the concrete 5-byte funder
`"0x123"`. -/
theorem c9_short_funder_panics_witness :
    runMain envShortFunder fxOnePair = .panicked slicePanicMsg :=
  c9_short_funder_panics envShortFunder fxOnePair "0x123" rfl (by decide)
    rfl (by decide) rfl rfl rfl rfl (Or.inl (by decide))
